import Mathlib

/-!
Verification of the `js-lua` repository scripts: `serve.py` (a static-asset
HTTP server with content-encoding negotiation for `.wasm` files) and the
two package.json patchers `add_deps.py` and `add_all_deps.py`.

The server is shallowly embedded: the filesystem is an explicit map from
path strings to optional byte lists, a request is a path plus the optional
Accept-Encoding header value, and `do_GET` computes the single HTTP
response the handler would emit.
-/

namespace JsLua

/-- A byte sequence (file contents / response body). -/
abbrev Bytes := List Nat

/-- The filesystem, as seen by `os.path.exists` and `open`: a map from path
strings to the file's bytes when the file exists. -/
abbrev FS := String → Option Bytes

/-- Whether `tok` occurs as a contiguous sublist of the second argument. -/
def containsSub (tok : List Char) : List Char → Bool
  | [] => tok.isEmpty
  | c :: cs => tok.isPrefixOf (c :: cs) || containsSub tok cs

/-- Python's `tok in s` substring test: `tok` occurs contiguously in `s`. -/
def containsTok (s tok : String) : Bool :=
  containsSub tok.toList s.toList

/-- Python's `s.endswith(suf)` suffix test, on the string's characters. -/
def endsWithTok (s suf : String) : Bool :=
  suf.data.isSuffixOf s.data

/-- An HTTP response: status code, header list (in emission order), body. -/
structure Response where
  status : Nat
  headers : List (String × String)
  body : Bytes
deriving DecidableEq

/-- `UltraFastHandler.end_headers`: the headers the override appends to
every response — the two cross-origin isolation headers always, plus the
aggressive cache-control header when the request path ends in `.wasm`. -/
def endHeadersExtra (path : String) : List (String × String) :=
  [("Cross-Origin-Opener-Policy", "same-origin"),
   ("Cross-Origin-Embedder-Policy", "require-corp")] ++
  (if endsWithTok path ".wasm" then
    [("Cache-Control", "public, max-age=31536000, immutable")]
   else [])

/-- Which representation the `.wasm` branch of `do_GET` picks: the code first
tries brotli (`'br' in accept_encoding and os.path.exists('.' + brotli_path)`),
then in the `elif` gzip, and otherwise falls through to normal serving. -/
inductive EncChoice where
  | brotli
  | gzipEnc
  | fallback
deriving DecidableEq

/-- The branch structure of `UltraFastHandler.do_GET` for a `.wasm` path:
`ae` is the raw Accept-Encoding value, the sibling paths are the request path
with `.br` / `.gz` appended, checked on disk under `'.' + path`. -/
def selectEncoding (fs : FS) (path ae : String) : EncChoice :=
  if containsTok ae "br" && (fs ("." ++ (path ++ ".br"))).isSome then
    .brotli
  else if containsTok ae "gzip" && (fs ("." ++ (path ++ ".gz"))).isSome then
    .gzipEnc
  else
    .fallback

/-- Modelled from the spec: the `Content-Type` inference of the standard
static-file handler (`SimpleHTTPRequestHandler.guess_type`, not part of this
repository's sources), with the explicit `mimetypes.add_type` registration
mapping `.wasm` to `application/wasm`; other extensions use the standard
MIME table, of which only a representative fragment matters here. -/
def guessType (path : String) : String :=
  if endsWithTok path ".wasm" then "application/wasm"
  else if endsWithTok path ".html" then "text/html"
  else if endsWithTok path ".js" then "text/javascript"
  else "application/octet-stream"

/-- Modelled from the spec: `super().do_GET()`, the standard-library
static-file delegate, which is not part of this repository's sources. Per the
spec it resolves the path under the server root, streams the file's actual
bytes with an inferred `Content-Type` on success, and signals the standard
not-found status when the file is missing; either way the response passes
through the repository's `end_headers` override. -/
def fallbackGET (fs : FS) (path : String) : Response :=
  match fs ("." ++ path) with
  | some bytes =>
      { status := 200
        headers := [("Content-Type", guessType path)] ++ endHeadersExtra path
        body := bytes }
  | none =>
      { status := 404
        headers := [("Content-Type", "text/html;charset=utf-8")] ++ endHeadersExtra path
        body := [] }

/-- The inline headers of the two compressed-serving branches of `do_GET`:
`Content-Type: application/wasm`, the chosen `Content-Encoding`, and the
inline cache-control header. -/
def wasmHdrs (enc : String) : List (String × String) :=
  [("Content-Type", "application/wasm"),
   ("Content-Encoding", enc),
   ("Cache-Control", "public, max-age=31536000, immutable")]

/-- `UltraFastHandler.do_GET`: for a `.wasm` path, serve the brotli or gzip
precompressed sibling when the Accept-Encoding header (defaulting to the
empty string when absent) names it and the sibling exists on disk; otherwise
fall back to normal static serving. Every branch ends with the
`end_headers` decoration. -/
def do_GET (fs : FS) (path : String) (acceptEncoding : Option String) : Response :=
  let ae := acceptEncoding.getD ""
  if endsWithTok path ".wasm" then
    match selectEncoding fs path ae with
    | .brotli =>
        { status := 200
          headers := wasmHdrs "br" ++ endHeadersExtra path
          body := (fs ("." ++ (path ++ ".br"))).getD [] }
    | .gzipEnc =>
        { status := 200
          headers := wasmHdrs "gzip" ++ endHeadersExtra path
          body := (fs ("." ++ (path ++ ".gz"))).getD [] }
    | .fallback => fallbackGET fs path
  else
    fallbackGET fs path

/-- A concrete filesystem used for evaluations: `./game.wasm`,
`./game.wasm.br` and `./game.wasm.gz` all exist, with distinct bytes. -/
def fsAll : FS := fun p =>
  if p = "./game.wasm" then some [0, 97, 115, 109]
  else if p = "./game.wasm.br" then some [27, 3]
  else if p = "./game.wasm.gz" then some [31, 139]
  else none

/-- A concrete filesystem where only the raw `./game.wasm` exists. -/
def fsRawOnly : FS := fun p =>
  if p = "./game.wasm" then some [0, 97, 115, 109] else none

/-- A concrete filesystem where only the compressed siblings exist and the
primary `./game.wasm` is absent. -/
def fsSiblingsOnly : FS := fun p =>
  if p = "./game.wasm.br" then some [27, 3]
  else if p = "./game.wasm.gz" then some [31, 139]
  else none

/-- The empty filesystem. -/
def fsEmpty : FS := fun _ => none

/-! ## The manifest patchers `add_deps.py` and `add_all_deps.py` -/

/-- A `dependencies` section of a `package.json` manifest: an ordered list of
(package name, version) pairs, as a JSON object preserving insertion order. -/
abbrev Deps := List (String × String)

/-- A parsed `package.json` manifest, reduced to the one top-level field the
patchers touch: `dependencies` is `some` exactly when the key is present. -/
structure Package where
  dependencies : Option Deps
deriving DecidableEq

/-- One iteration of the merge loop of both patchers:
`if dep not in package['dependencies']: package['dependencies'][dep] = version`
— a key already present is skipped, a missing key is appended. -/
def mergeStep (acc : Deps) (dv : String × String) : Deps :=
  if (List.lookup dv.1 acc).isSome then acc else acc ++ [dv]

/-- The dictionary-merge loop shared by both patchers:
`for dep, version in deps.items():` over the hard-coded dictionary, applying
`mergeStep` in iteration order. -/
def mergeInto (deps : Deps) (toAdd : List (String × String)) : Deps :=
  toAdd.foldl mergeStep deps

/-- The hard-coded `missing_deps` dictionary of `add_deps.py`. -/
def missing_deps : List (String × String) :=
  [("connect-mongo", "^4.6.0"),
   ("express", "^4.18.2"),
   ("express-session", "^1.17.3"),
   ("mongoose", "^7.5.0"),
   ("socket.io", "^4.7.2"),
   ("express-fileupload", "^1.4.0"),
   ("winston", "^3.10.0"),
   ("dotenv", "^16.3.1")]

/-- The hard-coded `all_deps` dictionary of `add_all_deps.py`. -/
def all_deps : List (String × String) :=
  [("handlebars", "^4.7.8"),
   ("@sentry/node", "^7.77.0"),
   ("express-fileupload", "^1.4.0"),
   ("swagger-jsdoc", "^6.2.8"),
   ("swagger-ui-express", "^5.0.0"),
   ("node-cron", "^3.0.2"),
   ("express-validator", "^7.0.1"),
   ("cookie-parser", "^1.4.6"),
   ("express-ejs-layouts", "^2.5.1"),
   ("method-override", "^3.0.0"),
   ("moment", "^2.29.4"),
   ("uuid", "^9.0.1"),
   ("axios", "^1.6.0"),
   ("lodash", "^4.17.21"),
   ("async", "^3.2.4")]

/-- `add_deps.py`: load the manifest, create an empty `dependencies` section
when the key is absent (`if 'dependencies' not in package`), merge
`missing_deps`, and write the result back. The run cannot fail. -/
def addDepsRun (p : Package) : Package :=
  { dependencies := some (mergeInto (p.dependencies.getD []) missing_deps) }

/-- `add_all_deps.py`: load the manifest and merge `all_deps` directly into
`package['dependencies']`. The script has no guard for a missing
`dependencies` key, so the subscript raises `KeyError` in that case; the run
is therefore fallible. -/
def addAllDepsRun (p : Package) : Except String Package :=
  match p.dependencies with
  | none => .error "KeyError: dependencies"
  | some deps => .ok { dependencies := some (mergeInto deps all_deps) }

/-! ## Helper lemmas -/

/-- Every branch of `do_GET` emits headers of the form
`inline ++ endHeadersExtra path`: the `end_headers` override runs on every
response. -/
theorem do_GET_headers_shape (fs : FS) (path : String) (ae : Option String) :
    ∃ pre, (do_GET fs path ae).headers = pre ++ endHeadersExtra path := by
  simp only [do_GET, fallbackGET]
  split
  · split
    · exact ⟨_, rfl⟩
    · exact ⟨_, rfl⟩
    · split
      · exact ⟨_, rfl⟩
      · exact ⟨_, rfl⟩
  · split
    · exact ⟨_, rfl⟩
    · exact ⟨_, rfl⟩

/-! ## Claims about the server -/

/-- C1: every response handled by the server, regardless of the request
path's extension and of the Accept-Encoding value, carries both
`Cross-Origin-Opener-Policy: same-origin` and
`Cross-Origin-Embedder-Policy: require-corp`. -/
theorem c1_isolation_headers_on_every_response (fs : FS) (path : String)
    (ae : Option String) :
    ("Cross-Origin-Opener-Policy", "same-origin") ∈ (do_GET fs path ae).headers ∧
    ("Cross-Origin-Embedder-Policy", "require-corp") ∈ (do_GET fs path ae).headers := by
  obtain ⟨pre, h⟩ := do_GET_headers_shape fs path ae
  rw [h]
  constructor <;> simp [endHeadersExtra]

/-- C2: for a `.wasm` request whose Accept-Encoding contains both the `br`
and the `gzip` token, when both precompressed siblings exist the response is
200 with the brotli sibling's bytes and `Content-Encoding: br`. -/
theorem c2_brotli_preferred (fs : FS) (path ae : String) (b g : Bytes)
    (hw : endsWithTok path ".wasm" = true)
    (hbr : containsTok ae "br" = true)
    (_hgz : containsTok ae "gzip" = true)
    (hb : fs ("." ++ (path ++ ".br")) = some b)
    (_hg : fs ("." ++ (path ++ ".gz")) = some g) :
    (do_GET fs path (some ae)).status = 200 ∧
    (do_GET fs path (some ae)).body = b ∧
    List.lookup "Content-Encoding" (do_GET fs path (some ae)).headers = some "br" := by
  have hsel : selectEncoding fs path ae = .brotli := by
    simp [selectEncoding, hbr, hb]
  have hresp : do_GET fs path (some ae) =
      { status := 200, headers := wasmHdrs "br" ++ endHeadersExtra path, body := b } := by
    simp [do_GET, hw, hsel, hb]
  rw [hresp]
  refine ⟨rfl, rfl, ?_⟩
  simp [wasmHdrs, endHeadersExtra, hw, List.lookup]

/-- Witness for C2 on a concrete filesystem and header. -/
theorem c2_brotli_preferred_witness :
    (do_GET fsAll "/game.wasm" (some "gzip, br")).status = 200 ∧
    (do_GET fsAll "/game.wasm" (some "gzip, br")).body = [27, 3] ∧
    List.lookup "Content-Encoding" (do_GET fsAll "/game.wasm" (some "gzip, br")).headers
      = some "br" :=
  c2_brotli_preferred fsAll "/game.wasm" "gzip, br" [27, 3] [31, 139]
    (by decide) (by decide) (by decide) (by decide) (by decide)

/-- C3: for a `.wasm` request whose Accept-Encoding contains the `gzip`
token but not the `br` token, when both siblings exist the response is 200
with the gzip sibling's bytes and `Content-Encoding: gzip`. -/
theorem c3_gzip_when_no_brotli_token (fs : FS) (path ae : String) (b g : Bytes)
    (hw : endsWithTok path ".wasm" = true)
    (hbr : containsTok ae "br" = false)
    (hgz : containsTok ae "gzip" = true)
    (_hb : fs ("." ++ (path ++ ".br")) = some b)
    (hg : fs ("." ++ (path ++ ".gz")) = some g) :
    (do_GET fs path (some ae)).status = 200 ∧
    (do_GET fs path (some ae)).body = g ∧
    List.lookup "Content-Encoding" (do_GET fs path (some ae)).headers = some "gzip" := by
  have hsel : selectEncoding fs path ae = .gzipEnc := by
    simp [selectEncoding, hbr, hgz, hg]
  have hresp : do_GET fs path (some ae) =
      { status := 200, headers := wasmHdrs "gzip" ++ endHeadersExtra path, body := g } := by
    simp [do_GET, hw, hsel, hg]
  rw [hresp]
  refine ⟨rfl, rfl, ?_⟩
  simp [wasmHdrs, endHeadersExtra, hw, List.lookup]

/-- Witness for C3: `Accept-Encoding: gzip, deflate` selects the gzip
sibling. -/
theorem c3_gzip_when_no_brotli_token_witness :
    (do_GET fsAll "/game.wasm" (some "gzip, deflate")).status = 200 ∧
    (do_GET fsAll "/game.wasm" (some "gzip, deflate")).body = [31, 139] ∧
    List.lookup "Content-Encoding" (do_GET fsAll "/game.wasm" (some "gzip, deflate")).headers
      = some "gzip" :=
  c3_gzip_when_no_brotli_token fsAll "/game.wasm" "gzip, deflate" [27, 3] [31, 139]
    (by decide) (by decide) (by decide) (by decide) (by decide)

/-- C4: for a `.wasm` request with no precompressed siblings on disk (and
the primary asset present), the response serves the raw bytes with
`Content-Type: application/wasm`, no `Content-Encoding` header, and the
immutable cache-control header, for any Accept-Encoding value. -/
theorem c4_raw_fallback_without_siblings (fs : FS) (path : String)
    (aeHdr : Option String) (bytes : Bytes)
    (hw : endsWithTok path ".wasm" = true)
    (hbr : fs ("." ++ (path ++ ".br")) = none)
    (hgz : fs ("." ++ (path ++ ".gz")) = none)
    (hraw : fs ("." ++ path) = some bytes) :
    (do_GET fs path aeHdr).status = 200 ∧
    (do_GET fs path aeHdr).body = bytes ∧
    List.lookup "Content-Type" (do_GET fs path aeHdr).headers = some "application/wasm" ∧
    List.lookup "Content-Encoding" (do_GET fs path aeHdr).headers = none ∧
    ("Cache-Control", "public, max-age=31536000, immutable") ∈ (do_GET fs path aeHdr).headers := by
  have hsel : ∀ ae, selectEncoding fs path ae = .fallback := by
    intro ae
    simp [selectEncoding, hbr, hgz]
  have hresp : do_GET fs path aeHdr =
      { status := 200
        headers := [("Content-Type", guessType path)] ++ endHeadersExtra path
        body := bytes } := by
    simp [do_GET, hw, hsel, fallbackGET, hraw]
  rw [hresp]
  refine ⟨rfl, rfl, ?_, ?_, ?_⟩ <;>
    simp [guessType, endHeadersExtra, hw, List.lookup]

/-- Witness for C4 on a filesystem holding only the raw asset, with a
client that would have accepted brotli. -/
theorem c4_raw_fallback_without_siblings_witness :
    (do_GET fsRawOnly "/game.wasm" (some "gzip, br")).status = 200 ∧
    (do_GET fsRawOnly "/game.wasm" (some "gzip, br")).body = [0, 97, 115, 109] ∧
    List.lookup "Content-Type" (do_GET fsRawOnly "/game.wasm" (some "gzip, br")).headers
      = some "application/wasm" ∧
    List.lookup "Content-Encoding" (do_GET fsRawOnly "/game.wasm" (some "gzip, br")).headers
      = none ∧
    ("Cache-Control", "public, max-age=31536000, immutable")
      ∈ (do_GET fsRawOnly "/game.wasm" (some "gzip, br")).headers :=
  c4_raw_fallback_without_siblings fsRawOnly "/game.wasm" (some "gzip, br")
    [0, 97, 115, 109] (by decide) (by decide) (by decide) (by decide)

/-- The filesystem with the two precompressed siblings of `path` removed;
used to phrase C5's equivalence with the no-siblings case. -/
def removeSiblings (fs : FS) (path : String) : FS := fun p =>
  if p = "." ++ (path ++ ".br") ∨ p = "." ++ (path ++ ".gz") then none else fs p

/-- A path is never equal to itself with a nonempty suffix appended. -/
theorem ne_self_append {s t u : String} (h : u.length ≠ 0) : s ++ t ≠ s ++ (t ++ u) := by
  intro he
  have hl := congrArg String.length he
  simp only [String.length_append] at hl
  omega

/-- C5: for a `.wasm` request whose Accept-Encoding value defaults to the
empty string, the response is the same as if the `.br` and `.gz` siblings
were absent from disk: the raw fallback is used even when siblings exist. -/
theorem c5_empty_header_ignores_siblings (fs : FS) (path : String)
    (aeHdr : Option String)
    (hw : endsWithTok path ".wasm" = true)
    (hae : aeHdr.getD "" = "") :
    do_GET fs path aeHdr = do_GET (removeSiblings fs path) path aeHdr := by
  have hbr : containsTok "" "br" = false := by decide
  have hgz : containsTok "" "gzip" = false := by decide
  have hsel : ∀ g : FS, selectEncoding g path "" = .fallback := fun g => by
    simp [selectEncoding, hbr, hgz]
  have hfs : removeSiblings fs path ("." ++ path) = fs ("." ++ path) := by
    simp only [removeSiblings]
    rw [if_neg]
    push_neg
    exact ⟨ne_self_append (by decide), ne_self_append (by decide)⟩
  simp only [do_GET, hae, hsel, hw, if_true, fallbackGET, hfs]

/-- Witness for C5: with all three files on disk and an empty header, the
responses agree. -/
theorem c5_empty_header_ignores_siblings_witness :
    do_GET fsAll "/game.wasm" (some "")
      = do_GET (removeSiblings fsAll "/game.wasm") "/game.wasm" (some "") :=
  c5_empty_header_ignores_siblings fsAll "/game.wasm" (some "") (by decide) (by decide)

/-- C6 (amended): the encoding check is raw substring containment on the
Accept-Encoding value, with the brotli branch taking strict precedence: the
brotli branch is taken iff the `br` token occurs and the `.br` sibling
exists, while the gzip branch is taken iff the `gzip` token occurs, the
`.gz` sibling exists, and the brotli branch is not taken. -/
theorem c6_substring_selection (fs : FS) (path ae : String) :
    (selectEncoding fs path ae = .brotli ↔
      containsTok ae "br" = true ∧ (fs ("." ++ (path ++ ".br"))).isSome = true) ∧
    (selectEncoding fs path ae = .gzipEnc ↔
      containsTok ae "gzip" = true ∧ (fs ("." ++ (path ++ ".gz"))).isSome = true ∧
      ¬(containsTok ae "br" = true ∧ (fs ("." ++ (path ++ ".br"))).isSome = true)) := by
  by_cases hP1 : containsTok ae "br" = true ∧ (fs ("." ++ (path ++ ".br"))).isSome = true <;>
    by_cases hP2 : containsTok ae "gzip" = true ∧ (fs ("." ++ (path ++ ".gz"))).isSome = true <;>
      simp [selectEncoding, Bool.and_eq_true, hP1, hP2]

/-- C6 counterexample: with both siblings on disk and the header
`"br, gzip"`, the gzip token occurs and the gzip sibling exists, yet the
selection is not the gzip branch (brotli wins), refuting the unqualified
biconditional for gzip. -/
theorem c6_counterexample :
    ¬(selectEncoding fsAll "/game.wasm" "br, gzip" = .gzipEnc ↔
      containsTok "br, gzip" "gzip" = true ∧
      (fsAll ("." ++ ("/game.wasm" ++ ".gz"))).isSome = true) := by decide

/-- C7: when the file at the resolved path is missing and the request takes
the fallback serving path, the response carries the standard 404 status
(`do_GET` is a total function, so no unhandled fault occurs). -/
theorem c7_missing_file_not_found (fs : FS) (path : String) (aeHdr : Option String)
    (hmiss : fs ("." ++ path) = none)
    (hfall : endsWithTok path ".wasm" = false ∨
      selectEncoding fs path (aeHdr.getD "") = .fallback) :
    (do_GET fs path aeHdr).status = 404 := by
  rcases hfall with h | h <;>
    simp [do_GET, h, fallbackGET, hmiss, apply_ite]

/-- Witness for C7: a request for a missing non-wasm path yields 404. -/
theorem c7_missing_file_not_found_witness :
    (do_GET fsEmpty "/missing.html" none).status = 404 :=
  c7_missing_file_not_found fsEmpty "/missing.html" none (by decide) (Or.inl (by decide))

/-! ## Claims about the manifest patchers -/

/-- Looking a key up in an extended association list still finds the
original binding. -/
theorem lookup_append_left {k v : String} {l₁ l₂ : Deps}
    (h : List.lookup k l₁ = some v) : List.lookup k (l₁ ++ l₂) = some v := by
  induction l₁ with
  | nil => simp [List.lookup] at h
  | cons hd tl ih =>
    obtain ⟨a, b⟩ := hd
    rw [List.cons_append]
    rw [List.lookup] at h ⊢
    cases hkb : k == a with
    | true => simpa [hkb] using h
    | false =>
      simp only [hkb] at h ⊢
      exact ih h

/-- One step of the merge loop: add the pair only when its key is absent. -/
theorem lookup_mergeStep {k v : String} {acc : Deps} (dv : String × String)
    (h : List.lookup k acc = some v) : List.lookup k (mergeStep acc dv) = some v := by
  unfold mergeStep
  split
  · exact h
  · exact lookup_append_left h

/-- The merge loop never changes the value of a key already present. -/
theorem lookup_mergeInto {k v : String} (toAdd : List (String × String)) (deps : Deps)
    (h : List.lookup k deps = some v) :
    List.lookup k (mergeInto deps toAdd) = some v := by
  induction toAdd generalizing deps with
  | nil => simpa [mergeInto] using h
  | cons hd tl ih =>
    have hstep : mergeInto deps (hd :: tl) = mergeInto (mergeStep deps hd) tl := by
      simp [mergeInto]
    rw [hstep]
    exact ih _ (lookup_mergeStep hd h)

/-- C8: a dependency key already present in the manifest keeps its version
under both patchers — the merges only add missing keys. -/
theorem c8_existing_versions_preserved (deps : Deps) (k v : String)
    (h : List.lookup k deps = some v) :
    List.lookup k ((addDepsRun ⟨some deps⟩).dependencies.getD []) = some v ∧
    ∃ q, addAllDepsRun ⟨some deps⟩ = .ok q ∧
      List.lookup k (q.dependencies.getD []) = some v := by
  refine ⟨?_, ⟨_, rfl, ?_⟩⟩ <;>
    · simp only [addDepsRun, addAllDepsRun, Option.getD_some]
      exact lookup_mergeInto _ _ h

/-- Witness for C8: a pinned `express` version survives both patchers. -/
theorem c8_existing_versions_preserved_witness :
    List.lookup "express"
        ((addDepsRun ⟨some [("express", "1.0.0")]⟩).dependencies.getD []) = some "1.0.0" ∧
    ∃ q, addAllDepsRun ⟨some [("express", "1.0.0")]⟩ = .ok q ∧
      List.lookup "express" (q.dependencies.getD []) = some "1.0.0" :=
  c8_existing_versions_preserved [("express", "1.0.0")] "express" "1.0.0" (by decide)

/-- C9 counterexample: on a valid manifest that lacks a `dependencies` key,
`add_all_deps.py` raises a `KeyError` (its subscript has no guard) instead
of completing. -/
theorem c9_counterexample :
    addAllDepsRun ⟨none⟩ = .error "KeyError: dependencies" := rfl

/-- C9 (amended): `add_deps.py` completes on every valid manifest and always
outputs a manifest with a dependencies object, including when the input
lacks the `dependencies` key; `add_all_deps.py` completes with a valid
manifest exactly when the input has a `dependencies` key, and fails with a
`KeyError` when it does not. -/
theorem c9_patcher_totality (p : Package) :
    (∃ d, (addDepsRun p).dependencies = some d) ∧
    (∀ deps, p.dependencies = some deps →
      ∃ q, addAllDepsRun p = .ok q ∧ ∃ d, q.dependencies = some d) ∧
    (p.dependencies = none → addAllDepsRun p = .error "KeyError: dependencies") := by
  obtain ⟨dep⟩ := p
  refine ⟨⟨_, rfl⟩, ?_, ?_⟩
  · intro deps h
    cases h
    exact ⟨_, rfl, _, rfl⟩
  · intro h
    cases h
    rfl

/-- Witness for C9 (amended): `add_deps.py` succeeds on a manifest without
dependencies, and `add_all_deps.py` succeeds on a manifest with one. -/
theorem c9_patcher_totality_witness :
    (∃ d, (addDepsRun ⟨none⟩).dependencies = some d) ∧
    (∃ q, addAllDepsRun ⟨some [("a", "1.0.0")]⟩ = .ok q ∧ ∃ d, q.dependencies = some d) :=
  ⟨(c9_patcher_totality ⟨none⟩).1,
   (c9_patcher_totality ⟨some [("a", "1.0.0")]⟩).2.1 [("a", "1.0.0")] rfl⟩

/-- C10: the compressed-serving branches never consult the primary `.wasm`
file: when the token is accepted and the sibling exists, the sibling is
served with status 200 even though the primary asset is absent from disk. -/
theorem c10_sibling_served_without_primary (fs : FS) (path ae : String)
    (hw : endsWithTok path ".wasm" = true)
    (_hprimary : fs ("." ++ path) = none) :
    (∀ b, containsTok ae "br" = true → fs ("." ++ (path ++ ".br")) = some b →
      (do_GET fs path (some ae)).status = 200 ∧
      (do_GET fs path (some ae)).body = b ∧
      List.lookup "Content-Encoding" (do_GET fs path (some ae)).headers = some "br") ∧
    (∀ g, containsTok ae "br" = false → containsTok ae "gzip" = true →
      fs ("." ++ (path ++ ".gz")) = some g →
      (do_GET fs path (some ae)).status = 200 ∧
      (do_GET fs path (some ae)).body = g ∧
      List.lookup "Content-Encoding" (do_GET fs path (some ae)).headers = some "gzip") := by
  constructor
  · intro b hbr hb
    have hsel : selectEncoding fs path ae = .brotli := by
      simp [selectEncoding, hbr, hb]
    have hresp : do_GET fs path (some ae) =
        { status := 200, headers := wasmHdrs "br" ++ endHeadersExtra path, body := b } := by
      simp [do_GET, hw, hsel, hb]
    rw [hresp]
    refine ⟨rfl, rfl, ?_⟩
    simp [wasmHdrs, endHeadersExtra, hw, List.lookup]
  · intro g hbr hgz hg
    have hsel : selectEncoding fs path ae = .gzipEnc := by
      simp [selectEncoding, hbr, hgz, hg]
    have hresp : do_GET fs path (some ae) =
        { status := 200, headers := wasmHdrs "gzip" ++ endHeadersExtra path, body := g } := by
      simp [do_GET, hw, hsel, hg]
    rw [hresp]
    refine ⟨rfl, rfl, ?_⟩
    simp [wasmHdrs, endHeadersExtra, hw, List.lookup]

/-- Witness for C10: with only the siblings on disk (no `./game.wasm`), a
brotli-accepting request is served the `.br` bytes with status 200. -/
theorem c10_sibling_served_without_primary_witness :
    (do_GET fsSiblingsOnly "/game.wasm" (some "br")).status = 200 ∧
    (do_GET fsSiblingsOnly "/game.wasm" (some "br")).body = [27, 3] :=
  have h := c10_sibling_served_without_primary fsSiblingsOnly "/game.wasm" "br"
    (by decide) (by decide)
  ⟨(h.1 [27, 3] (by decide) (by decide)).1, (h.1 [27, 3] (by decide) (by decide)).2.1⟩

end JsLua
